import Mathlib

/-!
Verification development for the `rmbloat` transcoding supervisor.

Shallow embedding of the job-supervision subsystem:
* `FfmpegMon.py` — the non-blocking process monitor (`poll`, `start`, `stop`);
  bytes are modelled as `List Nat`, the child's behaviour (available stderr
  bytes, `Popen.poll` result) enters as explicit parameters of each call.
* `JobHandler.py` — the retry ladder (`check_job_status`,
  `start_transcode_job` flags), the failure classifier
  (`_should_retry_with_error_tolerance`, `_should_retry_with_software`, the
  corruption scorer inside `finish_transcode_job`), and the progress
  arithmetic of `get_job_progress` (floats modelled as `Rat`).
* `ProbeCache.py` — the `get` read-through entry point and `_compute_fields`.

Python `dict`s become insertion-ordered association lists, fallible code
returns `Except`, and in-place mutation becomes explicit state passing.
-/

namespace Rmbloat

/-! ### Byte-level utilities (Python `bytes` as `List Nat`) -/

/-- Python `bytes.strip()` whitespace set: `b' \t\n\r\x0b\x0c'`. -/
def isAsciiWsByte (b : Nat) : Bool :=
  b = 32 || b = 9 || b = 10 || b = 13 || b = 11 || b = 12

/-- Python `bytes.strip()`: drop ASCII whitespace bytes from both ends. -/
def stripBytes (bs : List Nat) : List Nat :=
  ((bs.dropWhile isAsciiWsByte).reverse.dropWhile isAsciiWsByte).reverse

/-- Code points for which Python `str.strip()` strips (i.e. `str.isspace()`). -/
def isPySpaceCp (c : Nat) : Bool :=
  c = 32 || c = 9 || c = 10 || c = 11 || c = 12 || c = 13 ||
  c = 28 || c = 29 || c = 30 || c = 31 || c = 133 || c = 160 ||
  c = 0x1680 || (0x2000 ≤ c && c ≤ 0x200A) || c = 0x2028 || c = 0x2029 ||
  c = 0x202F || c = 0x205F || c = 0x3000

/-- Is `b` a UTF-8 continuation byte (`0x80..0xBF`)? -/
def isContByte (b : Nat) : Bool := 0x80 ≤ b && b ≤ 0xBF

/--
UTF-8 decoding with Python's `errors='ignore'` handler: invalid byte runs
(the maximal consumed bad sub-part, per CPython) are dropped silently.
Returns the decoded code points.  Mirrors the strict validity rules CPython
applies (no overlong forms, no surrogates, max U+10FFFF).  `fuel` bounds the
recursion; every step consumes at least one byte, so `fuel = length` is
enough (see `utf8DecodeIgnore`).
-/
def utf8DecodeAux : Nat → List Nat → List Nat
  | 0, _ => []
  | _ + 1, [] => []
  | fuel + 1, b :: rest =>
    if b < 0x80 then b :: utf8DecodeAux fuel rest
    else if 0xC2 ≤ b && b ≤ 0xDF then
      match rest with
      | [] => []
      | c1 :: r1 =>
        if isContByte c1 then
          ((b - 0xC0) * 0x40 + (c1 - 0x80)) :: utf8DecodeAux fuel r1
        else utf8DecodeAux fuel rest
    else if 0xE0 ≤ b && b ≤ 0xEF then
      match rest with
      | [] => []
      | c1 :: r1 =>
        let c1ok :=
          if b = 0xE0 then 0xA0 ≤ c1 && c1 ≤ 0xBF
          else if b = 0xED then 0x80 ≤ c1 && c1 ≤ 0x9F
          else isContByte c1
        if c1ok then
          match r1 with
          | [] => []
          | c2 :: r2 =>
            if isContByte c2 then
              ((b - 0xE0) * 0x1000 + (c1 - 0x80) * 0x40 + (c2 - 0x80)) ::
                utf8DecodeAux fuel r2
            else utf8DecodeAux fuel r1
        else utf8DecodeAux fuel rest
    else if 0xF0 ≤ b && b ≤ 0xF4 then
      match rest with
      | [] => []
      | c1 :: r1 =>
        let c1ok :=
          if b = 0xF0 then 0x90 ≤ c1 && c1 ≤ 0xBF
          else if b = 0xF4 then 0x80 ≤ c1 && c1 ≤ 0x8F
          else isContByte c1
        if c1ok then
          match r1 with
          | [] => []
          | c2 :: r2 =>
            if isContByte c2 then
              match r2 with
              | [] => []
              | c3 :: r3 =>
                if isContByte c3 then
                  ((b - 0xF0) * 0x40000 + (c1 - 0x80) * 0x1000 +
                    (c2 - 0x80) * 0x40 + (c3 - 0x80)) :: utf8DecodeAux fuel r3
                else utf8DecodeAux fuel r2
            else utf8DecodeAux fuel r1
        else utf8DecodeAux fuel rest
    else utf8DecodeAux fuel rest

/-- UTF-8 decode with `errors='ignore'` (see `utf8DecodeAux`). -/
def utf8DecodeIgnore (bs : List Nat) : List Nat :=
  utf8DecodeAux bs.length bs

/-- `bytes.decode('utf-8', errors='ignore')` producing a Lean `String`
(decoded code points are always valid scalar values). -/
def decodeStr (bs : List Nat) : String :=
  String.mk ((utf8DecodeIgnore bs).map Char.ofNat)

/-- Python `str.strip()`: strip Unicode whitespace from both ends. -/
def pyStrip (s : String) : String :=
  String.mk (((s.data.dropWhile (fun c => isPySpaceCp c.toNat)).reverse.dropWhile
    (fun c => isPySpaceCp c.toNat)).reverse)

/-- ASCII string to its byte list (all source literals involved are ASCII). -/
def asciiBytes (s : String) : List Nat := s.data.map Char.toNat

/-! ### Substring search (Python `needle in haystack` on `str`) -/

/-- `needle.isPrefixOf hay` on char lists, boolean. -/
def leadsWith : List Char → List Char → Bool
  | [], _ => true
  | _ :: _, [] => false
  | a :: as_, b :: bs => a = b && leadsWith as_ bs

/-- Does `hay` contain `needle` as a contiguous substring? -/
def containsSub : List Char → List Char → Bool
  | [], n => n.isEmpty
  | a :: t, n => leadsWith n (a :: t) || containsSub t n

/-- Python `needle in hay` for `str`. -/
def strContains (hay needle : String) : Bool :=
  containsSub hay.data needle.data

/-! ### Line framing

`FfmpegMon.poll` does `data = self.partial_line + chunk`,
`fragments = data.split(b'\n')`, keeps `fragments[-1]` as the new carry-over
and processes `fragments[:-1]` as complete lines.  `splitLines acc data`
computes exactly `(fragments[:-1], fragments[-1])` of `(acc ++ data)` split
on `b'\n'` (byte 10). -/

def splitLines (acc : List Nat) : List Nat → List (List Nat) × List Nat
  | [] => ([], acc)
  | b :: rest =>
    if b = 10 then
      let r := splitLines [] rest
      (acc :: r.1, r.2)
    else splitLines (acc ++ [b]) rest

theorem splitLines_append (a : List Nat) :
    ∀ (acc b : List Nat),
      splitLines acc (a ++ b) =
        ((splitLines acc a).1 ++ (splitLines (splitLines acc a).2 b).1,
         (splitLines (splitLines acc a).2 b).2) := by
  induction a with
  | nil => intro acc b; simp [splitLines]
  | cons x xs ih =>
    intro acc b
    by_cases hx : x = 10 <;> simp [splitLines, hx, ih]

theorem splitLines_snd_no_newline :
    ∀ (l acc : List Nat), (10 : Nat) ∉ acc → (10 : Nat) ∉ (splitLines acc l).2 := by
  intro l
  induction l with
  | nil => intro acc h; simpa [splitLines] using h
  | cons b rest ih =>
    intro acc h
    by_cases hb : b = 10
    · subst hb
      simpa [splitLines] using ih [] (by simp)
    · simp only [splitLines, if_neg hb]
      exact ih (acc ++ [b]) (by
        intro hmem
        rcases List.mem_append.mp hmem with h1 | h1
        · exact h h1
        · simp at h1; exact hb h1.symm)

theorem splitLines_of_no_newline :
    ∀ (l acc : List Nat), (10 : Nat) ∉ l → splitLines acc l = ([], acc ++ l) := by
  intro l
  induction l with
  | nil => intro acc _; simp [splitLines]
  | cons b rest ih =>
    intro acc h
    have hb : b ≠ 10 := by
      intro hb; exact h (by simp [hb])
    simp only [splitLines, if_neg hb]
    rw [ih (acc ++ [b]) (fun hm => h (List.mem_cons_of_mem _ hm))]
    simp

/-! ### The process monitor (`FfmpegMon`)

State of one `FfmpegMon` instance.  `processAlive` models
`self.process is not None`; `leftover` models `self.partial_line` (the
carry-over of a possibly incomplete trailing line); `progressBuffer` models
the insertion-ordered dict `self.progress_buffer`. -/

structure MonState where
  processAlive : Bool
  leftover : List Nat
  outputQueue : List String
  returnCode : Option Int
  progressBuffer : List (String × String)
  tempFile : Option String
  deriving Repr, DecidableEq

/-- A freshly constructed `FfmpegMon` (its `__init__`). -/
def MonState.init : MonState :=
  ⟨false, [], [], none, [], none⟩

/-- Python-dict update on an insertion-ordered association list:
replace in place if the key exists, else append. -/
def dictSet (d : List (String × String)) (k v : String) : List (String × String) :=
  if d.any (fun p => p.1 = k) then
    d.map (fun p => if p.1 = k then (k, v) else p)
  else d ++ [(k, v)]

/-- Python `dict.get(k, dflt)`. -/
def dictGet (d : List (String × String)) (k dflt : String) : String :=
  match d.find? (fun p => p.1 = k) with
  | some p => p.2
  | none => dflt

/-- `PROGRESS_KEYS` of `FfmpegMon.poll` (byte strings). -/
def PROGRESS_KEYS : List (List Nat) :=
  ["frame", "fps", "stream_0_0_q", "bitrate", "total_size",
   "out_time_us", "out_time", "dup_frames", "drop_frames",
   "speed", "progress", "out_time_ms"].map asciiBytes

/-- The composite progress string `poll` builds when the `progress` key
arrives, from the accumulated buffer `b`:
`f"frame={..} fps={..} bitrate={..} time={..} speed={..}x"`. -/
def compositeOf (b : List (String × String)) : String :=
  "frame=" ++ dictGet b "frame" "0" ++
  " fps=" ++ dictGet b "fps" "0" ++
  " bitrate=" ++ dictGet b "bitrate" "0" ++
  " time=" ++ dictGet b "out_time" "00:00:00.00" ++
  " speed=" ++ dictGet b "speed" "0" ++ "x"

/--
One complete line of the loop body in `poll` (`for line_bytes in
fragments[:-1]`), acting on the `(output_queue, progress_buffer)` pair:
empty lines are skipped; a `key=value` line whose stripped key is in
`PROGRESS_KEYS` feeds the accumulator (and, on the terminator key
`progress`, enqueues `"PROGRESS:" ++ composite` and resets the
accumulator); anything else is enqueued as a decoded, stripped log line.
-/
def handleLine (acc : List String × List (String × String)) (line : List Nat) :
    List String × List (String × String) :=
  let (q, buf) := acc
  if line = [] then (q, buf)
  else if 61 ∈ line then
    let keyRaw := line.takeWhile (fun b => b ≠ 61)
    let valRaw := line.drop (keyRaw.length + 1)
    let keyB := stripBytes keyRaw
    if keyB ∈ PROGRESS_KEYS then
      let keyStr := decodeStr keyB
      let valStr := decodeStr (stripBytes valRaw)
      let buf1 := dictSet buf keyStr valStr
      if keyStr = "progress" then
        (q ++ ["PROGRESS:" ++ compositeOf buf1], [])
      else (q, buf1)
    else (q ++ [pyStrip (decodeStr line)], buf)
  else (q ++ [pyStrip (decodeStr line)], buf)

/-- The chunk-handling section of `poll` (`if chunk:` body): prepend the
carry-over, split on `b'\n'`, process the complete lines, keep the last
fragment as the new carry-over. -/
def processChunk (s : MonState) (chunk : List Nat) : MonState :=
  let (lines, p) := splitLines [] (s.leftover ++ chunk)
  let (q, buf) := lines.foldl handleLine (s.outputQueue, s.progressBuffer)
  { s with leftover := p, outputQueue := q, progressBuffer := buf }

/-- The carry-over flush in `poll`'s termination branch: if the carry-over
is non-empty, decode+strip it, enqueue it when the result is non-empty,
and clear the carry-over. -/
def flushLeftover (s : MonState) : MonState :=
  if s.leftover = [] then s
  else
    let lstr := pyStrip (decodeStr s.leftover)
    { s with
      leftover := [],
      outputQueue := if lstr ≠ "" then s.outputQueue ++ [lstr] else s.outputQueue }

/-- Result of one `poll` call: `none`, a text line / progress event, or an
integer exit code (`None | str | int` in the source). -/
inductive PollResult where
  | noEvent
  | line (s : String)
  | code (c : Int)
  deriving Repr, DecidableEq

/-- `self.return_code` as a poll result (the `return self.return_code`
path, where `None` means "no event"). -/
def codeResult : Option Int → PollResult
  | some c => PollResult.code c
  | none => PollResult.noEvent

/--
`FfmpegMon.poll`, as a state transformer.  The child's observable
behaviour enters as parameters: `chunk` is what the non-blocking
`stderr.read()` yields (`[]` when it would block, raised, or hit EOF —
all falsy in the source) and `procStatus` is `self.process.poll()`
(`none` while the child is alive).
-/
def pollM (s : MonState) (chunk : List Nat) (procStatus : Option Int) :
    MonState × PollResult :=
  match s.outputQueue with
  | q0 :: rest => ({ s with outputQueue := rest }, .line q0)
  | [] =>
    if s.processAlive = false then (s, codeResult s.returnCode)
    else
      let s1 := if chunk ≠ [] then processChunk s chunk else s
      match procStatus with
      | some status =>
        let s2 := flushLeftover s1
        match s2.outputQueue with
        | q0 :: rest =>
          ({ s2 with outputQueue := rest, returnCode := some status }, .line q0)
        | [] =>
          ({ s2 with processAlive := false, returnCode := some status },
            .code status)
      | none => (s1, .noEvent)

/--
`FfmpegMon.start`: the temp-file registration happens BEFORE the
already-monitoring check, so the mutated state survives even when the
`RuntimeError` is raised.  `launchOk` abstracts whether `subprocess.Popen`
succeeds (on failure the source records the sentinel code 127).
Returns the mutated state plus the call's outcome.
-/
def startM (s : MonState) (tempFile : Option String) (launchOk : Bool) :
    MonState × Except String Unit :=
  let s1 := { s with tempFile := tempFile }
  if s1.processAlive then
    (s1, .error "FfmpegMon is already monitoring a process.")
  else if launchOk then
    ({ s1 with processAlive := true }, .ok ())
  else
    ({ s1 with returnCode := some 127 }, .ok ())

/--
`FfmpegMon.stop(return_code)`: (best-effort kill of the child, then)
attempt removal of the registered temp file, reset the buffers and the
process handle, and record the given code.  The output queue is NOT
cleared by the source.  Returns the new state together with the temp-file
path whose removal was attempted (`none` when no file was registered).
-/
def stopM (s : MonState) (returnCode : Int) : MonState × Option String :=
  ({ s with
      tempFile := none,
      processAlive := false,
      leftover := [],
      progressBuffer := [],
      returnCode := some returnCode },
   s.tempFile)

/-! ### Job / Run / Vid data (`Models.py` is not under `src/`)

Only declarations and callers of `Job` and `Vid` are available, so the
data holders are modelled from the spec (section 3 of the design). -/

/-- Modelled from the spec: a `Run` is one transcode attempt's record —
ordered captured log lines, nullable final exit code, strategy
description, and the constructed command line. -/
structure Run where
  texts : List String
  return_code : Option Int
  descr : String
  command : String
  deriving Repr, DecidableEq

/-- A fresh `Run` (all fields empty, exit code null). -/
def Run.fresh : Run := ⟨[], none, "", ""⟩

/-- Modelled from the spec: a `Vid` holds the ordered sequence of `Run`
records across the whole retry history.  `return_code` is the attribute
interpolated into the corruption report of `finish_transcode_job`. -/
structure Vid where
  runs : List Run
  return_code : Option Int
  deriving Repr, DecidableEq

/-- Modelled from the spec: `Vid.start_new_run` pushes a fresh `Run`
(a new Run is pushed for each attempt). -/
def Vid.start_new_run (v : Vid) : Vid :=
  { v with runs := v.runs ++ [Run.fresh] }

/-- `vid.runs[-1]` (the current run; the source assumes it exists). -/
def lastRun (v : Vid) : Run := v.runs.getLastD Run.fresh

/-- In-place mutation of `vid.runs[-1]` (no-op on an empty history,
which the source never reaches). -/
def modifyLastRun (v : Vid) (f : Run → Run) : Vid :=
  match v.runs.getLast? with
  | none => v
  | some r => { v with runs := v.runs.dropLast ++ [f r] }

/-- Modelled from the spec: a `Job` is one active attempt — the two
ladder-tier flags, the live process monitor, the target duration and the
wall-clock start instant.  Path bookkeeping not used by any claim is
omitted. -/
structure Job where
  is_retry : Bool
  is_software_fallback : Bool
  mon : MonState
  duration_secs : Rat
  start_mono : Rat
  deriving Repr, DecidableEq

/-! ### Failure classifier (`JobHandler._should_retry_*`) -/

/-- `filter_error_signals` of `_should_retry_with_error_tolerance`. -/
def filter_error_signals : List String :=
  ["Error reinitializing filters",
   "Impossible to convert between the formats",
   "Reconfiguring filter graph because video parameters changed"]

/-- `corruption_signals` of `_should_retry_with_error_tolerance`
(insertion order of the dict literal). -/
def corruption_signals : List (String × Nat) :=
  [("corrupt decoded frame", 10),
   ("illegal mb_num", 9),
   ("marker does not match f_code", 9)]

/-- The inner `for signal, score in corruption_signals.items()` loop with
its `break`: score of the first matching signal on this line, if any. -/
def firstSignalScore (line : String) : Option Nat :=
  (corruption_signals.find? (fun p => strContains line p.1)).map (fun p => p.2)

/-- The severity loop of `_should_retry_with_error_tolerance`: running
total over lines, returning `True` as soon as the total reaches 20. -/
def sevLoop (total : Nat) : List String → Bool
  | [] => false
  | line :: rest =>
    match firstSignalScore line with
    | some sc =>
      if total + sc ≥ 20 then true else sevLoop (total + sc) rest
    | none => sevLoop total rest

/-- `JobHandler._should_retry_with_error_tolerance(vid)`. -/
def should_retry_with_error_tolerance (v : Vid) : Bool :=
  if (lastRun v).return_code = some 0 then false
  else if filter_error_signals.any
      (fun sig => (lastRun v).texts.any (fun line => strContains line sig)) then
    true
  else sevLoop 0 (lastRun v).texts

/-- `filter_reconfig_signals` of `_should_retry_with_software` (narrower
than the tolerant set). -/
def filter_reconfig_signals : List String :=
  ["Error reinitializing filters",
   "Impossible to convert between the formats"]

/-- `JobHandler._should_retry_with_software(vid)`. -/
def should_retry_with_software (v : Vid) : Bool :=
  if (lastRun v).return_code = some 0 then false
  else filter_reconfig_signals.any
    (fun sig => (lastRun v).texts.any (fun line => strContains line sig))

/-! ### Corruption scorer (the inner scoring function of
`JobHandler.finish_transcode_job`) -/

/-- `CORRUPTION_SEVERITY` table (insertion order of the dict literal). -/
def CORRUPTION_SEVERITY : List (String × Nat) :=
  [("corrupt decoded frame", 10),
   ("illegal mb_num", 9),
   ("marker does not match f_code", 9),
   ("damaged at", 8),
   ("Error at MB:", 7),
   ("time_increment_bits", 6),
   ("slice end not reached", 5),
   ("concealing", 2)]

/-- First matching severity signal on a line (the inner loop with its
`break`). -/
def firstSeverity (line : String) : Option Nat :=
  (CORRUPTION_SEVERITY.find? (fun p => strContains line p.1)).map (fun p => p.2)

/-- Is `c` an ASCII digit? (`\d` of the repeat regex on these inputs). -/
def isDigitCh (c : Char) : Bool := 48 ≤ c.toNat && c.toNat ≤ 57

/-- `int()` of a digit string. -/
def digitsVal (ds : List Char) : Nat :=
  ds.foldl (fun a c => a * 10 + (c.toNat - 48)) 0

/-- Try `re.search(r"Last message repeated (\d+) times", ...)` anchored at
this position: literal prefix, one or more digits, literal `" times"`. -/
def repeatAt (l : List Char) : Option Nat :=
  if leadsWith "Last message repeated ".data l then
    let rest := l.drop 22
    let ds := rest.takeWhile isDigitCh
    if ds ≠ [] && leadsWith " times".data (rest.drop ds.length) then
      some (digitsVal ds)
    else none
  else none

/-- `re.search` scan (leftmost match) for the repeat pattern. -/
def findRepeat : List Char → Option Nat
  | [] => none
  | a :: t =>
    match repeatAt (a :: t) with
    | some n => some n
    | none => findRepeat t

/--
The scoring loop of the corruption reporter: threading
`(total_severity, corruption_events, last_score)` over the lines.  A
signal match adds its weight and one event; a repeat line adds
`last_score * multiplier` (and `multiplier` events only when the previous
line matched) and clears the carried score.
-/
def corruptionLoop : Nat → Nat → Nat → List String → Nat × Nat
  | total, events, _, [] => (total, events)
  | total, events, last, line :: rest =>
    let m := firstSeverity line
    let t1 := match m with | some sc => total + sc | none => total
    let e1 := match m with | some _ => events + 1 | none => events
    let this1 := match m with | some sc => sc | none => 0
    match findRepeat line.data with
    | some mult =>
      corruptionLoop (t1 + last * mult)
        (if last > 0 then e1 + mult else e1) 0 rest
    | none => corruptionLoop t1 e1 this1 rest

/-- `(total_severity, corruption_events)` of a run's captured lines. -/
def corruptionScore (texts : List String) : Nat × Nat :=
  corruptionLoop 0 0 0 texts

/-- Python `f"...{x}..."` rendering of a nullable int. -/
def pyShowOptInt : Option Int → String
  | none => "None"
  | some i => toString i

/-- The corruption marker line appended when the threshold (30) is
crossed. -/
def corruptMarker (total events : Nat) (vidRC : Option Int) : String :=
  "CORRUPT VIDEO: Total Severity Score " ++ toString total ++
  " from " ++ toString events ++ " events. FFmpeg error_code=" ++
  pyShowOptInt vidRC

/-- The corruption reporter of `finish_transcode_job` (source symbol
`elaborate_err`): on a non-zero (or still-null) exit code, score the
current run's lines and append the `CORRUPT VIDEO` marker when the total
reaches the threshold 30. -/
def corruptReport (v : Vid) : Vid :=
  if (lastRun v).return_code ≠ some 0 then
    let sc := corruptionScore (lastRun v).texts
    if sc.1 ≥ 30 then
      modifyLastRun v (fun r =>
        { r with texts := r.texts ++ [corruptMarker sc.1 sc.2 v.return_code] })
    else v
  else v

/-! ### Retry ladder (`JobHandler.check_job_status` /
`start_transcode_job`) -/

/--
The run/flag bookkeeping of `JobHandler.start_transcode_job`: on a fresh
(non-retry, non-software) start the run history is reset; a new run is
pushed and its description set; the returned `Job` carries
`is_retry := retry_with_error_tolerance` and
`is_software_fallback := force_software`, with a freshly started monitor
registered on `temp_file`.  Path construction, probing and the ffmpeg
command line (built via `FfmpegChooser`, which is not under `src/`) are
environment inputs here: `temp_file`, `duration_secs` and the start
instant `now_mono` are passed in.
-/
def start_transcode_jobM (vid : Vid)
    (retry_with_error_tolerance force_software : Bool)
    (temp_file : String) (duration_secs now_mono : Rat) : Vid × Job :=
  let vid1 :=
    if retry_with_error_tolerance = false ∧ force_software = false then
      { vid with runs := [] }
    else vid
  let vid2 := vid1.start_new_run
  let descr :=
    if retry_with_error_tolerance ∧ force_software = false then
      "redo w err tolerance"
    else if force_software then "retry w S/W convert"
    else "initial run"
  let vid3 := modifyLastRun vid2 (fun r => { r with descr := descr })
  (vid3,
   { is_retry := retry_with_error_tolerance,
     is_software_fallback := force_software,
     mon := { MonState.init with
                processAlive := true, tempFile := some temp_file },
     duration_secs := duration_secs,
     start_mono := now_mono })

/-- What `get_job_progress` hands to `check_job_status`:
`None`, a progress/report string, or an integer exit code. -/
inductive ProgressResult where
  | silent
  | text (s : String)
  | code (c : Int)
  deriving Repr, DecidableEq

/--
The exit-code branch of `JobHandler.check_job_status`: record the code on
the current run, then the ladder decides — tolerant retry (tier 2),
software retry (tier 3), or final completion with status
`' OK'`/`'OK2'`/`'OK3'`/`'ERR'`.  Returns
`(vid', next_job, report_text, is_done)`.
-/
def check_code (vid : Vid) (job : Job) (rc : Int)
    (temp_file : String) (duration_secs now_mono : Rat) :
    Vid × Option Job × Option String × Bool :=
  let vid1 := modifyLastRun vid (fun r => { r with return_code := some rc })
  if rc ≠ 0 ∧ job.is_retry = false ∧ job.is_software_fallback = false ∧
      should_retry_with_error_tolerance vid1 = true then
    let p := start_transcode_jobM vid1 true false temp_file duration_secs now_mono
    (p.1, some p.2, some "RETRYING (Tolerant)...", false)
  else if rc ≠ 0 ∧ job.is_retry = true ∧ job.is_software_fallback = false ∧
      should_retry_with_software vid1 = true then
    let p := start_transcode_jobM vid1 true true temp_file duration_secs now_mono
    (p.1, some p.2, some "RETRYING (Software)...", false)
  else
    let status :=
      if rc = 0 then
        (if job.is_software_fallback then "OK3"
         else if job.is_retry then "OK2" else " OK")
      else "ERR"
    (vid1, none, some status, true)

/--
`JobHandler.check_job_status(job)` given the value `got` returned by
`get_job_progress` (factored out so the clock-dependent monitoring loop
stays separate): a running job (`None` or a string) is passed through;
an integer exit code goes to the retry ladder (`check_code`).
-/
def check_job_statusCore (vid : Vid) (job : Job) (got : ProgressResult)
    (temp_file : String) (duration_secs now_mono : Rat) :
    Vid × Option Job × Option String × Bool :=
  match got with
  | .silent => (vid, some job, none, false)
  | .text s => (vid, some job, some s, false)
  | .code rc => check_code vid job rc temp_file duration_secs now_mono

/-- The ladder tier a job sits on, as its two flags. -/
def tierOf (job : Job) : Bool × Bool := (job.is_retry, job.is_software_fallback)

/--
One Vid's lifetime, driven by terminal results: each step injects the
lines the attempt captured (`texts`) into the current run and hands the
terminal exit code `rc` to `check_job_status`; the trace records the tier
of every job that existed.  Stops when the ladder finalizes.
-/
def ladderTrace (vid : Vid) (job : Job)
    (temp_file : String) (duration_secs now_mono : Rat) :
    List (List String × Int) → List (Bool × Bool)
  | [] => [tierOf job]
  | (texts, rc) :: rest =>
    let vid1 := modifyLastRun vid (fun r => { r with texts := r.texts ++ texts })
    match check_job_statusCore vid1 job (.code rc) temp_file duration_secs now_mono with
    | (vid2, some j2, _, _) =>
      tierOf job :: ladderTrace vid2 j2 temp_file duration_secs now_mono rest
    | (_, none, _, _) => [tierOf job]

/-! ### Progress interpreter (`JobHandler.get_job_progress`) -/

/-- The numbers `get_job_progress` derives from one matched progress
string; `remaining = none` is rendered as `"N/A"`. -/
structure ProgressCalc where
  time_encoded_seconds : Rat
  avg_speed : Rat
  percent_complete : Rat
  remaining : Option Rat
  deriving Repr, DecidableEq

/--
The computation on a matched `PROGRESS_RE` result (groups
`h`/`m`/`s`/fractional digit string), against the clock and the job's
target duration (floats modelled as rationals):
encoded seconds, average speed (guarded by `elapsed > 0.5` and a positive
encode position), percent complete and remaining wall-clock seconds
(guarded by positive duration and speed, else `0` / `"N/A"`).
`avg_speed_src` is the `avg_speed` assignment of the source (step 3,
"ACCURATE SPEED CALCULATION"), factored out by name.
-/
def avg_speed_src (time_encoded_seconds elapsed_real : Rat) : Rat :=
  if elapsed_real > 1/2 ∧ time_encoded_seconds > 0 then
    time_encoded_seconds / elapsed_real
  else 0

/-- See `avg_speed_src` — the remaining computation of
`get_job_progress` on a matched progress string. -/
def progressCalc (h m s : Nat) (f_str : List Char)
    (now_mono start_mono duration_secs : Rat) : ProgressCalc :=
  let f_val : Rat := (digitsVal f_str : Rat) / (10 : Rat) ^ f_str.length
  let time_encoded_seconds : Rat := h * 3600 + m * 60 + s + f_val
  let elapsed_real := now_mono - start_mono
  let avg_speed := avg_speed_src time_encoded_seconds elapsed_real
  if duration_secs > 0 ∧ avg_speed > 0 then
    { time_encoded_seconds := time_encoded_seconds,
      avg_speed := avg_speed,
      percent_complete := time_encoded_seconds / duration_secs * 100,
      remaining := some ((duration_secs - time_encoded_seconds) / avg_speed) }
  else
    { time_encoded_seconds := time_encoded_seconds,
      avg_speed := avg_speed,
      percent_complete := 0,
      remaining := none }

/--
The no-event branch of `get_job_progress`'s monitoring loop: when the
time since the last observed output exceeds `progress_secs_max`, append
`'PROGRESS TIMEOUT'` to the current run, `stop` the monitor with exit
code 254, push the last-output clock a million seconds into the future
and return 254; otherwise report nothing.  Returns
`(vid', mon', prev_out', result, temp-file removal attempted)`.
-/
def stallStep (vid : Vid) (mon : MonState) (prev_out now_mono secs_max : Rat) :
    Vid × MonState × Rat × Option Int × Option String :=
  if now_mono - prev_out > secs_max then
    let vid1 := modifyLastRun vid
      (fun r => { r with texts := r.texts ++ ["PROGRESS TIMEOUT"] })
    let p := stopM mon 254
    (vid1, p.1, now_mono + 1000000, some 254, p.2)
  else (vid, mon, prev_out, none, none)

/-! ### Probe cache (`ProbeCache.get` / `_compute_fields`) -/

/-- The metadata record a probe yields (`SimpleNamespace` in the source);
`bloat` and `gb` are the manufactured fields of `_compute_fields`. -/
structure ProbeMeta where
  anomaly : Option String
  width : Nat
  height : Nat
  codec : String
  color_spt : String
  bitrate : Int
  duration : Rat
  size_bytes : Nat
  bloat : Int := 0
  gb : Rat := 0
  deriving Repr, DecidableEq

/--
`ProbeCache._compute_fields(meta)`: dereferences `meta.width`
unconditionally, so a `None` argument raises `AttributeError` (modelled
as the error branch).  `math.sqrt` and Python's float/banker's rounding
are approximated over rationals (integer square root, round-half-up,
3-decimal rounding for `gb`) — no claim depends on these numeric values.
-/
def compute_fields : Option ProbeMeta → Except String ProbeMeta
  | none => .error "AttributeError: NoneType object has no attribute width"
  | some m =>
    let area := m.width * m.height
    .ok { m with
      bloat :=
        if area > 0 then round ((m.bitrate : Rat) / (Nat.sqrt area : Rat) * 1000)
        else 0,
      gb := (round ((m.size_bytes : Rat) / (1024 * 1024 * 1024) * 1000) : Int) / 1000 }

/--
`ProbeCache.get(filepath)`: the cache-validity check and the ffprobe run
are environment inputs (`cached` is what `_get_valid_entry` returns,
`probed` what `_get_metadata_with_ffprobe` returns — both return `None`
on failure per their source).  On a cache miss the source stores the
probe result (when any) and then calls `self._compute_fields(meta)`
UNCONDITIONALLY before returning `meta`.
-/
def probe_get (cached probed : Option ProbeMeta) : Except String ProbeMeta :=
  match cached with
  | some m => .ok m
  | none =>
    match compute_fields probed with
    | .ok m2 => .ok m2
    | .error e => .error e

/-! ## Claims -/

/-- The C4 scenario: three `corrupt decoded frame` lines followed by one
repeat line. -/
def c4Texts : List String :=
  ["corrupt decoded frame", "corrupt decoded frame", "corrupt decoded frame",
   "Last message repeated 2 times"]

/-- The C4 scenario wrapped in a `Vid` whose current run failed. -/
def c4Vid : Vid := ⟨[⟨c4Texts, some 1, "", ""⟩], some 1⟩

/-- C4 (counterexample): on the spec's scenario the corruption scorer
counts FIVE corruption events, not six — the three matched lines
contribute one event each and the repeat line adds its multiplier 2
(3 + 2 = 5); the claim's "four matched lines become six" is false (the
repeat line itself is not a signal match). -/
theorem C4_event_count_cex :
    corruptionScore c4Texts = (50, 5) ∧ (corruptionScore c4Texts).2 ≠ 6 := by
  constructor <;> decide

/-- C4 (amended): a log containing `corrupt decoded frame` three times
followed by `Last message repeated 2 times` yields total severity
10+10+10+10·2 = 50 over five corruption events, crosses the threshold 30,
and the corruption reporter appends the `CORRUPT VIDEO` marker to the
run's text. -/
theorem C4_corruption_scoring :
    corruptionScore c4Texts = (50, 5) ∧
    30 ≤ (corruptionScore c4Texts).1 ∧
    corruptReport c4Vid =
      ⟨[⟨c4Texts ++ [corruptMarker 50 5 (some 1)], some 1, "", ""⟩], some 1⟩ ∧
    corruptMarker 50 5 (some 1) =
      "CORRUPT VIDEO: Total Severity Score 50 from 5 events. FFmpeg error_code=1" := by
  refine ⟨by decide, by decide, ?_, by decide⟩
  decide

/-- Monitor state right after a successful `start` (for the C5 scenario). -/
def c5Start : MonState := { MonState.init with processAlive := true }

/-- The C5 scenario's read: the four lines in one chunk. -/
def c5Chunk : List Nat :=
  asciiBytes "frame=100\ntime=00:01:30.50\nspeed=2.0\nprogress=continue\n"

/-- C5 (counterexample): exactly one composite snapshot is emitted, but it
is NOT the claimed string — `time` is not one of the monitor's
`PROGRESS_KEYS` (only `out_time` is), so `time=00:01:30.50` is emitted as
an ordinary log line and the snapshot's time field keeps its default. -/
theorem C5_snapshot_cex :
    ((processChunk c5Start c5Chunk).outputQueue.countP
        (fun l => leadsWith "PROGRESS:".data l.data)) = 1 ∧
    "frame=100 fps=0 bitrate=0 time=00:01:30.50 speed=2.0x" ∉
      (processChunk c5Start c5Chunk).outputQueue ∧
    "PROGRESS:frame=100 fps=0 bitrate=0 time=00:01:30.50 speed=2.0x" ∉
      (processChunk c5Start c5Chunk).outputQueue := by
  refine ⟨by decide, by decide, by decide⟩

/-- C5 (amended): on the four lines `frame=100`, `time=00:01:30.50`,
`speed=2.0`, `progress=continue` arriving in one read, the monitor
enqueues the unrecognized `time=...` line as a log line and exactly one
composite snapshot `frame=100 fps=0 bitrate=0 time=00:00:00.00
speed=2.0x` (the snapshot's time field is the default because the
encoder progress vocabulary uses `out_time`, not `time`), with the
accumulator reset and no carry-over left. -/
theorem C5_snapshot :
    processChunk c5Start c5Chunk =
      { c5Start with
          outputQueue :=
            ["time=00:01:30.50",
             "PROGRESS:frame=100 fps=0 bitrate=0 time=00:00:00.00 speed=2.0x"],
          progressBuffer := [],
          leftover := [] } := by
  decide

/-- The C8 counterexample run: exit code 1, one severe-corruption line
followed by a repeat line with multiplier 5. -/
def c8Vid : Vid :=
  ⟨[⟨["corrupt decoded frame", "Last message repeated 5 times"],
     some 1, "", ""⟩], some 1⟩

/-- Definition following the claim's words (C8), for comparison with the
source's `_should_retry_with_error_tolerance`: non-zero exit code AND
(a filter/format signal in some captured line OR the full section-4.3
weighted severity — `CORRUPTION_SEVERITY` table with the repeat
multiplier — reaching 20). -/
def claimTolerantEligible (v : Vid) : Bool :=
  (match (lastRun v).return_code with
   | some rc => rc ≠ 0
   | none => false) &&
  (filter_error_signals.any
      (fun sig => (lastRun v).texts.any (fun line => strContains line sig)) ||
   20 ≤ (corruptionScore (lastRun v).texts).1)

/-- C8 (counterexample): the tolerant-retry check does NOT use the full
section-4.3 scoring: on a failed run whose text scores 60 under the full
table-with-multiplier (so the claim says eligible), the source returns
`False` — its reduced three-signal scan with no repeat multiplier only
reaches 10. -/
theorem C8_classifier_cex :
    claimTolerantEligible c8Vid = true ∧
    (corruptionScore (lastRun c8Vid).texts).1 = 60 ∧
    should_retry_with_error_tolerance c8Vid = false := by
  refine ⟨by decide, by decide, by decide⟩

/-- Severity as `_should_retry_with_error_tolerance` accumulates it:
per line, the first matching signal of the reduced three-entry table. -/
def reducedSeverity (texts : List String) : Nat :=
  (texts.map (fun l => (firstSignalScore l).getD 0)).sum

theorem sevLoop_eq (texts : List String) :
    ∀ total : Nat, total < 20 →
      (sevLoop total texts = true ↔ 20 ≤ total + reducedSeverity texts) := by
  induction texts with
  | nil =>
    intro total h
    simp [sevLoop, reducedSeverity]
    omega
  | cons line rest ih =>
    intro total h
    simp only [sevLoop, reducedSeverity, List.map_cons, List.sum_cons]
    cases hm : firstSignalScore line with
    | none =>
      simpa [hm, reducedSeverity] using ih total h
    | some sc =>
      by_cases hge : 20 ≤ total + sc
      · simp [hge, hm]
        omega
      · have hlt : total + sc < 20 := by omega
        have := ih (total + sc) hlt
        simp only [reducedSeverity] at this
        simp [hm, if_neg (by omega : ¬ 20 ≤ total + sc), this]
        constructor <;> intro <;> omega

/-- C8 (amended): `_should_retry_with_error_tolerance` returns `True`
exactly when the run's recorded exit code is not 0 AND (some captured
line contains one of the three filter-reinitialization /
format-incompatibility substrings, OR the severity accumulated over the
REDUCED three-signal table (`corrupt decoded frame`=10, `illegal
mb_num`=9, `marker does not match f_code`=9; first matching signal per
line, no repeat multiplier) reaches 20, the loop early-exiting at the
threshold); a run with exit code 0 is never eligible. -/
theorem C8_classifier (v : Vid) :
    should_retry_with_error_tolerance v = true ↔
      ((lastRun v).return_code ≠ some 0 ∧
       (filter_error_signals.any
          (fun sig => (lastRun v).texts.any (fun line => strContains line sig)) = true ∨
        20 ≤ reducedSeverity (lastRun v).texts)) := by
  unfold should_retry_with_error_tolerance
  by_cases h0 : (lastRun v).return_code = some 0
  · simp [h0]
  · simp only [h0, if_false, ite_false, if_neg h0]
    by_cases hf : filter_error_signals.any
        (fun sig => (lastRun v).texts.any (fun line => strContains line sig)) = true
    · simp [hf, h0]
    · simp only [hf, if_false]
      have := sevLoop_eq (lastRun v).texts 0 (by omega)
      simp only [Nat.zero_add] at this
      simp [this, h0, hf]

/-- C9 (code bug): on a cache miss whose ffprobe extraction also fails,
`ProbeCache.get` does not return a failure value — it feeds `None` into
`_compute_fields`, which dereferences `meta.width` and raises
`AttributeError`.  The claim (and the source's own `Optional` return
annotation and its caller `finish_transcode_job`, which tests
`if not probe:`) expect a returned failure value instead.  A valid cache
hit or a successful probe does yield a metadata record. -/
theorem C9_probe_get_raises :
    (probe_get none none =
      Except.error "AttributeError: NoneType object has no attribute width") ∧
    (∀ m probed, probe_get (some m) probed = Except.ok m) ∧
    (∀ m, ∃ m2, probe_get none (some m) = Except.ok m2) := by
  refine ⟨rfl, fun m probed => rfl, fun m => ⟨_, rfl⟩⟩

/-- C10: calling `start` while a child is already monitored raises the
`RuntimeError`, but the temp-file registration has already been
overwritten with the new call's argument before the check, so a
subsequent `stop()` attempts removal of the newly supplied temp file,
not the one registered by the original `start`. -/
theorem C10_start_nonatomic (s : MonState) (newTemp : Option String)
    (launchOk : Bool) (hAlive : s.processAlive = true) :
    startM s newTemp launchOk =
      ({ s with tempFile := newTemp },
       Except.error "FfmpegMon is already monitoring a process.") ∧
    (stopM { s with tempFile := newTemp } 255).2 = newTemp := by
  constructor
  · simp [startM, hAlive]
  · rfl

/-- A monitor live on `ORIG.tmp` (for the C10 witness). -/
def c10Orig : MonState :=
  { MonState.init with processAlive := true, tempFile := some "ORIG.tmp" }

/-- C10 (witness): with a monitor live on `ORIG.tmp`, a second `start`
registering `NEW.tmp` errors out yet leaves `NEW.tmp` registered, and the
following `stop` attempts to remove `NEW.tmp`. -/
theorem C10_start_nonatomic_witness :
    startM c10Orig (some "NEW.tmp") true =
      ({ c10Orig with tempFile := some "NEW.tmp" },
       Except.error "FfmpegMon is already monitoring a process.") ∧
    (stopM { c10Orig with tempFile := some "NEW.tmp" } 255).2 = some "NEW.tmp" :=
  C10_start_nonatomic c10Orig (some "NEW.tmp") true rfl

/-! ### Chunk-split invariance (C2) -/

theorem processChunk_append (s : MonState) (a b : List Nat) :
    processChunk (processChunk s a) b = processChunk s (a ++ b) := by
  unfold processChunk
  have hp1 : (10 : Nat) ∉ (splitLines [] (s.leftover ++ a)).2 :=
    splitLines_snd_no_newline _ [] (by simp)
  have h1 : splitLines [] ((splitLines [] (s.leftover ++ a)).2 ++ b) =
      splitLines (splitLines [] (s.leftover ++ a)).2 b := by
    rw [splitLines_append ((splitLines [] (s.leftover ++ a)).2) [] b,
      splitLines_of_no_newline _ [] hp1]
    simp
  have h2 : splitLines [] (s.leftover ++ (a ++ b)) =
      ((splitLines [] (s.leftover ++ a)).1 ++
        (splitLines (splitLines [] (s.leftover ++ a)).2 b).1,
       (splitLines (splitLines [] (s.leftover ++ a)).2 b).2) := by
    rw [← List.append_assoc]
    exact splitLines_append (s.leftover ++ a) [] b
  simp only [h1, h2, List.foldl_append]

/-- Feeding a sequence of reads through the chunk-processing section of
`poll` (with `poll`'s `if chunk:` guard: an empty/blocked read processes
nothing). -/
def feedChunks (s : MonState) (chunks : List (List Nat)) : MonState :=
  chunks.foldl (fun t c => if c ≠ [] then processChunk t c else t) s

theorem feedChunks_flatten (chunks : List (List Nat)) :
    ∀ s : MonState, feedChunks s chunks =
      if chunks.flatten ≠ [] then processChunk s chunks.flatten else s := by
  induction chunks with
  | nil => intro s; simp [feedChunks]
  | cons c rest ih =>
    intro s
    by_cases hc : c = []
    · subst hc
      simpa [feedChunks] using ih s
    · have step : feedChunks s (c :: rest) = feedChunks (processChunk s c) rest := by
        simp [feedChunks, hc]
      rw [step, ih (processChunk s c)]
      by_cases hr : rest.flatten = []
      · simp [hr, hc]
      · have : c ++ rest.flatten ≠ [] := by
          intro hne
          exact hc (List.append_eq_nil.mp hne).1
        simp [hr, this, processChunk_append]

/--
C2: delivering the child's stderr bytes in any sequence of reads drives
the monitor to exactly the same state — same queued events in the same
order, same carry-over, same progress accumulator — as delivering the
whole stream in one contiguous read.  Since `pollM` emits queued events
FIFO and the exit flush acts on the carry-over only, the emitted sequence
of log lines and composite progress snapshots is identical, including
splits inside a multi-byte UTF-8 sequence or mid-`key=value` pair (the
framing and carry-over operate on raw bytes; decoding happens per
complete line only).
-/
theorem C2_chunk_split_invariance (s : MonState) (chunks : List (List Nat)) :
    feedChunks s chunks = feedChunks s [chunks.flatten] := by
  rw [feedChunks_flatten chunks s, feedChunks_flatten [chunks.flatten] s]
  simp

/-! ### Exit-code reporting order (C1) -/

theorem flushLeftover_leftover (s : MonState) :
    (flushLeftover s).leftover = [] := by
  unfold flushLeftover
  split
  · assumption
  · rfl

/--
C1 (amended): ordering of `poll`'s events around child exit, for any
state whose dead-process configurations are clean (the invariant every
reachable state satisfies):
1. while queued events exist, `poll` returns them first, FIFO, touching
   nothing else;
2. whenever `poll` returns an integer exit code, the queue was already
   empty on entry and the resulting state is fully drained (empty queue,
   empty carry-over) with the code recorded;
3. once the process handle is gone and a code is recorded, every
   subsequent `poll` returns that same code and leaves the state fixed;
4. at child exit, a carry-over line that is non-empty after decoding and
   stripping is flushed and returned as a final log line BEFORE any exit
   code (the code itself is only recorded); a whitespace-only carry-over,
   however, is discarded rather than flushed (the correction to the
   claim, see `C1_whitespace_flush_cex`).
-/
theorem C1_exit_after_drain (s : MonState) (chunk : List Nat) (st : Option Int)
    (hinv : s.processAlive = false → s.leftover = [] ∧ s.outputQueue = []) :
    (∀ q0 rest, s.outputQueue = q0 :: rest →
      pollM s chunk st = ({ s with outputQueue := rest }, .line q0)) ∧
    (∀ s1 c, pollM s chunk st = (s1, .code c) →
      s.outputQueue = [] ∧ s1.outputQueue = [] ∧ s1.leftover = [] ∧
      s1.returnCode = some c ∧ s1.processAlive = false) ∧
    (∀ c, s.processAlive = false → s.returnCode = some c →
      pollM s chunk st = (s, .code c)) ∧
    (∀ c, s.outputQueue = [] → s.processAlive = true → chunk = [] →
      st = some c → pyStrip (decodeStr s.leftover) ≠ "" →
      pollM s chunk st =
        ({ s with leftover := [], outputQueue := [], returnCode := some c },
         .line (pyStrip (decodeStr s.leftover)))) := by
  refine ⟨?_, ?_, ?_, ?_⟩
  · intro q0 rest h
    obtain ⟨pa, lo, oq, rc, pb, tf⟩ := s
    simp only at h
    subst h
    rfl
  · intro s1 c h
    obtain ⟨pa, lo, oq, rc, pb, tf⟩ := s
    cases oq with
    | cons q0 rest => simp [pollM] at h
    | nil =>
      refine ⟨rfl, ?_⟩
      cases pa with
      | false =>
        cases rc with
        | none => simp [pollM, codeResult] at h
        | some c0 =>
          simp only [pollM, codeResult] at h
          obtain ⟨h1, h2⟩ := Prod.mk.injEq .. ▸ h
          obtain ⟨hlo, _⟩ := hinv rfl
          cases h2
          rw [← h1]
          exact ⟨rfl, hlo, rfl, rfl⟩
      | true =>
        cases st with
        | none =>
          simp [pollM] at h
        | some status =>
          simp only [pollM] at h
          set s1m := (if chunk ≠ [] then
            processChunk ⟨true, lo, [], rc, pb, tf⟩ chunk
            else ⟨true, lo, [], rc, pb, tf⟩) with hs1m
          rcases hq : (flushLeftover s1m).outputQueue with _ | ⟨q0, rest⟩
          · rw [hq] at h
            obtain ⟨h1, h2⟩ := Prod.mk.injEq .. ▸ h
            cases h2
            rw [← h1]
            exact ⟨rfl, flushLeftover_leftover s1m, rfl, rfl⟩
          · rw [hq] at h
            simp at h
  · intro c hpa hrc
    obtain ⟨hlo, hoq⟩ := hinv hpa
    obtain ⟨pa, lo, oq, rc, pb, tf⟩ := s
    simp only at hpa hrc hlo hoq
    subst hpa hrc hlo hoq
    rfl
  · intro c hq hpa hchunk hst hne
    obtain ⟨pa, lo, oq, rc, pb, tf⟩ := s
    simp only at hq hpa hne ⊢
    subst hq hpa hchunk hst
    by_cases hlo : lo = []
    · exfalso
      apply hne
      subst hlo
      rfl
    · show pollM ⟨true, lo, [], rc, pb, tf⟩ [] (some c) = _
      simp only [pollM, ne_eq, not_true_eq_false, if_false, ite_false]
      have hflush : flushLeftover ⟨true, lo, [], rc, pb, tf⟩ =
          ⟨true, [], [pyStrip (decodeStr lo)], rc, pb, tf⟩ := by
        unfold flushLeftover
        simp [hlo, hne]
      simp [hflush]

/-- C1 (counterexample): the child exits while two space bytes (a
non-empty carry-over with no terminating newline) are pending; the claim
says they are flushed as a final log line before the exit code, but the
source strips them to the empty string and discards them — the very same
`poll` call returns the exit code, and no log line is ever emitted. -/
theorem C1_whitespace_flush_cex :
    pollM ⟨true, [32, 32], [], none, [], none⟩ [] (some 0) =
      (⟨false, [], [], some 0, [], none⟩, PollResult.code 0) := by
  decide

/-- A live monitor with the carry-over bytes of `" tail"` pending (for
the C1 witness). -/
def c1State : MonState :=
  { MonState.init with processAlive := true, leftover := asciiBytes " tail" }

/-- C1 (witness): at child exit with carry-over `" tail"`, `poll` first
returns the flushed log line `"tail"`, leaving a drained state with the
exit code recorded. -/
theorem C1_exit_after_drain_witness :
    pollM c1State [] (some 3) =
      ({ c1State with leftover := [], outputQueue := [], returnCode := some 3 },
       PollResult.line "tail") := by
  have h := (C1_exit_after_drain c1State [] (some 3)
    (by decide)).2.2.2 3 rfl rfl rfl rfl (by decide)
  rw [h]
  decide

/-! ### Retry-ladder theorems (C3) -/

theorem stepSoft_final (v : Vid) (j : Job) (rc : Int) (tf : String) (d n : Rat)
    (hs : j.is_software_fallback = true) :
    (check_job_statusCore v j (.code rc) tf d n).2.1 = none ∧
    (check_job_statusCore v j (.code rc) tf d n).2.2.2 = true := by
  simp [check_job_statusCore, check_code, hs]

theorem stepSome_flags (v : Vid) (j : Job) (rc : Int) (tf : String) (d n : Rat)
    (v2 : Vid) (j2 : Job) (ms : Option String) (b : Bool)
    (hres : check_job_statusCore v j (.code rc) tf d n = (v2, some j2, ms, b)) :
    (j.is_retry = false ∧ j.is_software_fallback = false ∧
      j2.is_retry = true ∧ j2.is_software_fallback = false ∧
      ms = some "RETRYING (Tolerant)..." ∧ b = false) ∨
    (j.is_retry = true ∧ j.is_software_fallback = false ∧
      j2.is_retry = true ∧ j2.is_software_fallback = true ∧
      ms = some "RETRYING (Software)..." ∧ b = false) := by
  replace hres : check_code v j rc tf d n = (v2, some j2, ms, b) := hres
  simp only [check_code] at hres
  split at hres
  next hc1 =>
    left
    obtain ⟨-, hr, hsf, -⟩ := hc1
    have hj2 := Option.some.inj (congrArg (fun t => t.2.1) hres)
    have hms := congrArg (fun t => t.2.2.1) hres
    have hb := congrArg (fun t => t.2.2.2) hres
    simp only at hj2 hms hb
    subst hj2
    exact ⟨hr, hsf, rfl, rfl, hms.symm, hb.symm⟩
  next hc1 =>
    split at hres
    next hc2 =>
      right
      obtain ⟨-, hr, hsf, -⟩ := hc2
      have hj2 := Option.some.inj (congrArg (fun t => t.2.1) hres)
      have hms := congrArg (fun t => t.2.2.1) hres
      have hb := congrArg (fun t => t.2.2.2) hres
      simp only at hj2 hms hb
      subst hj2
      exact ⟨hr, hsf, rfl, rfl, hms.symm, hb.symm⟩
    next hc2 =>
      exfalso
      have hoj := congrArg (fun t => t.2.1) hres
      simp only at hoj
      exact Option.noConfusion hoj

theorem ladderTrace_soft (tf : String) (d n : Rat) :
    ∀ (inputs : List (List String × Int)) (v : Vid) (j : Job),
      j.is_software_fallback = true →
      ladderTrace v j tf d n inputs = [tierOf j] := by
  intro inputs
  induction inputs with
  | nil => intro v j _; rfl
  | cons x rest ih =>
    intro v j hs
    obtain ⟨txts, rc⟩ := x
    have hstep := stepSoft_final
      (modifyLastRun v (fun r => { r with texts := r.texts ++ txts }))
      j rc tf d n hs
    rcases hres : check_job_statusCore
        (modifyLastRun v (fun r => { r with texts := r.texts ++ txts }))
        j (.code rc) tf d n with ⟨v2, oj, ms, b⟩
    rw [hres] at hstep
    obtain ⟨hoj, -⟩ := hstep
    simp only at hoj
    subst hoj
    simp only [ladderTrace, hres]

theorem ladderTrace_tier10 (tf : String) (d n : Rat) :
    ∀ (inputs : List (List String × Int)) (v : Vid) (j : Job),
      j.is_retry = true → j.is_software_fallback = false →
      ladderTrace v j tf d n inputs = [(true, false)] ∨
      ladderTrace v j tf d n inputs = [(true, false), (true, true)] := by
  intro inputs
  induction inputs with
  | nil =>
    intro v j h1 h2
    left
    simp [ladderTrace, tierOf, h1, h2]
  | cons x rest ih =>
    intro v j h1 h2
    obtain ⟨txts, rc⟩ := x
    rcases hres : check_job_statusCore
        (modifyLastRun v (fun r => { r with texts := r.texts ++ txts }))
        j (.code rc) tf d n with ⟨v2, oj, ms, b⟩
    cases oj with
    | none =>
      left
      simp only [ladderTrace, hres, tierOf, h1, h2]
    | some j2 =>
      rcases stepSome_flags _ _ _ _ _ _ _ _ _ _ hres with
        ⟨hr, -, -, -, -, -⟩ | ⟨-, -, hr2, hs2, -, -⟩
      · rw [h1] at hr; exact absurd hr (by simp)
      · right
        have htail := ladderTrace_soft tf d n rest v2 j2 hs2
        simp only [ladderTrace, hres, tierOf, h1, h2, htail, hr2, hs2]

theorem ladderTrace_tier00 (tf : String) (d n : Rat)
    (inputs : List (List String × Int)) (v : Vid) (j : Job)
    (h1 : j.is_retry = false) (h2 : j.is_software_fallback = false) :
    ladderTrace v j tf d n inputs = [(false, false)] ∨
    ladderTrace v j tf d n inputs = [(false, false), (true, false)] ∨
    ladderTrace v j tf d n inputs = [(false, false), (true, false), (true, true)] := by
  cases inputs with
  | nil =>
    left
    simp [ladderTrace, tierOf, h1, h2]
  | cons x rest =>
    obtain ⟨txts, rc⟩ := x
    rcases hres : check_job_statusCore
        (modifyLastRun v (fun r => { r with texts := r.texts ++ txts }))
        j (.code rc) tf d n with ⟨v2, oj, ms, b⟩
    cases oj with
    | none =>
      left
      simp only [ladderTrace, hres, tierOf, h1, h2]
    | some j2 =>
      rcases stepSome_flags _ _ _ _ _ _ _ _ _ _ hres with
        ⟨-, -, hr2, hs2, -, -⟩ | ⟨hr, -, -, -, -, -⟩
      · rcases ladderTrace_tier10 tf d n rest v2 j2 hr2 hs2 with htail | htail
        · right; left
          simp only [ladderTrace, hres, tierOf, h1, h2, htail]
        · right; right
          simp only [ladderTrace, hres, tierOf, h1, h2, htail]
      · rw [h1] at hr; exact absurd hr (by simp)

/--
C3: over one Vid's lifetime driven by `check_job_status` results,
(1) the tier trace is one of `[initial]`, `[initial, tolerant]`,
`[initial, tolerant, software]` — no tier is ever revisited and at most
two retries occur; (2) a `RETRYING (Tolerant)` continuation is produced
only from a job with `is_retry = False` and `is_software_fallback =
False` and carries `is_retry = True`, `is_software_fallback = False`;
(3) a `RETRYING (Software)` continuation is produced only from a job
with `is_retry = True`, `is_software_fallback = False` and carries both
flags `True`; (4) any terminal exit code on a software-fallback job
finalizes the job (`next_job = None`, `is_done = True`) with no further
retry.
-/
theorem C3_retry_ladder (vid : Vid) (job : Job) (tf : String) (d n : Rat)
    (inputs : List (List String × Int))
    (h1 : job.is_retry = false) (h2 : job.is_software_fallback = false) :
    (List.Pairwise (fun a b => a ≠ b) (ladderTrace vid job tf d n inputs) ∧
     (ladderTrace vid job tf d n inputs).length ≤ 3) ∧
    (∀ (v v2 : Vid) (j j2 : Job) (rc : Int) (ms : Option String) (b : Bool),
      check_job_statusCore v j (.code rc) tf d n = (v2, some j2, ms, b) →
      ms = some "RETRYING (Tolerant)..." →
      j.is_retry = false ∧ j.is_software_fallback = false ∧
      j2.is_retry = true ∧ j2.is_software_fallback = false) ∧
    (∀ (v v2 : Vid) (j j2 : Job) (rc : Int) (ms : Option String) (b : Bool),
      check_job_statusCore v j (.code rc) tf d n = (v2, some j2, ms, b) →
      ms = some "RETRYING (Software)..." →
      j.is_retry = true ∧ j.is_software_fallback = false ∧
      j2.is_retry = true ∧ j2.is_software_fallback = true) ∧
    (∀ (v : Vid) (j : Job) (rc : Int), j.is_software_fallback = true →
      (check_job_statusCore v j (.code rc) tf d n).2.1 = none ∧
      (check_job_statusCore v j (.code rc) tf d n).2.2.2 = true) := by
  refine ⟨?_, ?_, ?_, fun v j rc hs => stepSoft_final v j rc tf d n hs⟩
  · rcases ladderTrace_tier00 tf d n inputs vid job h1 h2 with h | h | h <;>
      rw [h] <;> exact ⟨by decide, by decide⟩
  · intro v v2 j j2 rc ms b hres hms
    rcases stepSome_flags _ _ _ _ _ _ _ _ _ _ hres with
      ⟨ha, hb', hc, hd, -, -⟩ | ⟨-, -, -, -, hm, -⟩
    · exact ⟨ha, hb', hc, hd⟩
    · rw [hms] at hm
      exact absurd (Option.some.inj hm) (by decide)
  · intro v v2 j j2 rc ms b hres hms
    rcases stepSome_flags _ _ _ _ _ _ _ _ _ _ hres with
      ⟨-, -, -, -, hm, -⟩ | ⟨ha, hb', hc, hd, -, -⟩
    · rw [hms] at hm
      exact absurd (Option.some.inj hm) (by decide)
    · exact ⟨ha, hb', hc, hd⟩

/-- The initial job of the C3 witness scenario (fresh start, both tier
flags off). -/
def c3Job : Job :=
  (start_transcode_jobM ⟨[], none⟩ false false "TEMP.x.mkv" 90 0).2

/-- C3 (witness): a fresh job whose first attempt fails with a filter
error and whose tolerant attempt then fails the same way walks the full
ladder `initial → tolerant → software` with no tier repeated. -/
theorem C3_retry_ladder_witness :
    List.Pairwise (fun a b => a ≠ b)
      (ladderTrace (start_transcode_jobM ⟨[], none⟩ false false "TEMP.x.mkv" 90 0).1
        c3Job "TEMP.x.mkv" 90 0
        [(["Error reinitializing filters"], 1),
         (["Error reinitializing filters"], 1)]) ∧
    (ladderTrace (start_transcode_jobM ⟨[], none⟩ false false "TEMP.x.mkv" 90 0).1
        c3Job "TEMP.x.mkv" 90 0
        [(["Error reinitializing filters"], 1),
         (["Error reinitializing filters"], 1)]).length ≤ 3 :=
  (C3_retry_ladder (start_transcode_jobM ⟨[], none⟩ false false "TEMP.x.mkv" 90 0).1
    c3Job "TEMP.x.mkv" 90 0
    [(["Error reinitializing filters"], 1), (["Error reinitializing filters"], 1)]
    rfl rfl).1

/-! ### Progress arithmetic (C6) and stall detection (C7) -/

/--
C6: for a matched progress string, the rendered numbers satisfy exactly
the claimed formulas: the encoded playback seconds are
`h*3600 + m*60 + s` plus the fractional digit group divided by ten to
the power of its own length; the average speed is encoded seconds over
elapsed wall-clock seconds exactly when elapsed exceeds 0.5s and the
encoded time is positive, else 0; the percent complete is encoded over
target duration times 100 and the remaining seconds are
`(duration − encoded) / average speed` exactly when both the target
duration and the average speed are positive, otherwise percent is 0 and
the remaining time is reported as unknown (`N/A`).
-/
theorem C6_progress_math (h m s : Nat) (f : List Char)
    (now st dur : Rat) (pc : ProgressCalc)
    (hpc : pc = progressCalc h m s f now st dur) :
    (pc.time_encoded_seconds =
      h * 3600 + m * 60 + s + (digitsVal f : Rat) / (10 : Rat) ^ f.length) ∧
    (now - st > 1/2 ∧ pc.time_encoded_seconds > 0 →
      pc.avg_speed = pc.time_encoded_seconds / (now - st)) ∧
    (¬(now - st > 1/2 ∧ pc.time_encoded_seconds > 0) → pc.avg_speed = 0) ∧
    (dur > 0 ∧ pc.avg_speed > 0 →
      pc.percent_complete = pc.time_encoded_seconds / dur * 100 ∧
      pc.remaining = some ((dur - pc.time_encoded_seconds) / pc.avg_speed)) ∧
    (¬(dur > 0 ∧ pc.avg_speed > 0) →
      pc.percent_complete = 0 ∧ pc.remaining = none) := by
  have henc : pc.time_encoded_seconds =
      h * 3600 + m * 60 + s + (digitsVal f : Rat) / (10 : Rat) ^ f.length := by
    rw [hpc]
    simp only [progressCalc]
    split <;> rfl
  have havg : pc.avg_speed =
      avg_speed_src (h * 3600 + m * 60 + s +
        (digitsVal f : Rat) / (10 : Rat) ^ f.length) (now - st) := by
    rw [hpc]
    simp only [progressCalc]
    split <;> rfl
  refine ⟨henc, ?_, ?_, ?_, ?_⟩
  · intro hcond
    rw [henc] at hcond
    rw [havg, henc, avg_speed_src, if_pos hcond]
  · intro hcond
    rw [henc] at hcond
    rw [havg, avg_speed_src, if_neg hcond]
  · intro hcond
    rw [havg] at hcond
    rw [hpc]
    simp only [progressCalc]
    rw [if_pos hcond]
    exact ⟨rfl, rfl⟩
  · intro hcond
    rw [havg] at hcond
    rw [hpc]
    simp only [progressCalc]
    rw [if_neg hcond]
    exact ⟨rfl, rfl⟩

/-- C6 (witness): at `time=00:01:30.50` after 45 elapsed seconds against
a 90-second target, the encoded position is 90.5s, the average speed is
90.5/45 and the remaining estimate is `(90 − 90.5)/(90.5/45)`. -/
theorem C6_progress_math_witness :
    (progressCalc 0 1 30 "50".data 145 100 90).time_encoded_seconds = 181/2 ∧
    (progressCalc 0 1 30 "50".data 145 100 90).avg_speed = (181/2) / 45 ∧
    (progressCalc 0 1 30 "50".data 145 100 90).remaining =
      some ((90 - 181/2) / ((181/2) / 45)) := by
  have h := C6_progress_math 0 1 30 "50".data 145 100 90
    (progressCalc 0 1 30 "50".data 145 100 90) rfl
  have henc : (progressCalc 0 1 30 "50".data 145 100 90).time_encoded_seconds =
      181/2 := by
    rw [h.1]
    have hd : digitsVal "50".data = 50 := by decide
    have hl : "50".data.length = 2 := by decide
    rw [hd, hl]
    norm_num
  have helapsed : (145 : Rat) - 100 = 45 := by norm_num
  have havg := h.2.1 ⟨by norm_num, by rw [henc]; norm_num⟩
  rw [henc, helapsed] at havg
  have hrem := (h.2.2.2.1 ⟨by norm_num, by rw [havg]; norm_num⟩).2
  rw [henc, havg] at hrem
  exact ⟨henc, havg, hrem⟩

/--
C7: when `poll` yields no event and the time since the last observed
output exceeds the configured stall threshold, the progress interpreter
appends the `PROGRESS TIMEOUT` marker to the current run's text,
force-stops the monitor with the stalled exit code 254 (the stop also
attempting removal of the registered temp file), returns 254 as the
terminal result, and pushes the last-output clock 1,000,000 seconds into
the future — so the stall branch cannot fire again for this job at any
instant within a million seconds of the trip.
-/
theorem C7_stall_circuit_breaker (vid : Vid) (mon : MonState)
    (prev now secs_max : Rat)
    (hrun : vid.runs ≠ []) (hstall : now - prev > secs_max) :
    stallStep vid mon prev now secs_max =
      (modifyLastRun vid
        (fun r => { r with texts := r.texts ++ ["PROGRESS TIMEOUT"] }),
       { mon with tempFile := none, processAlive := false, leftover := [],
                  progressBuffer := [], returnCode := some 254 },
       now + 1000000, some 254, mon.tempFile) ∧
    (lastRun (stallStep vid mon prev now secs_max).1).texts =
      (lastRun vid).texts ++ ["PROGRESS TIMEOUT"] ∧
    (∀ (v2 : Vid) (m2 : MonState) (t : Rat), t ≤ now + 1000000 + secs_max →
      (stallStep v2 m2 (now + 1000000) t secs_max).2.2.2.1 = none) := by
  have hmain : stallStep vid mon prev now secs_max =
      (modifyLastRun vid
        (fun r => { r with texts := r.texts ++ ["PROGRESS TIMEOUT"] }),
       { mon with tempFile := none, processAlive := false, leftover := [],
                  progressBuffer := [], returnCode := some 254 },
       now + 1000000, some 254, mon.tempFile) := by
    unfold stallStep stopM
    rw [if_pos hstall]
  refine ⟨hmain, ?_, ?_⟩
  · rw [hmain]
    obtain ⟨runs, rc⟩ := vid
    cases runs with
    | nil => exact absurd rfl hrun
    | cons r0 rest =>
      simp only [modifyLastRun, lastRun]
      cases hlast : (r0 :: rest).getLast? with
      | none => exact absurd (List.getLast?_eq_none_iff.mp hlast) (by simp)
      | some rl =>
        have hd : (r0 :: rest).getLastD Run.fresh = rl := by
          rw [List.getLastD_eq_getLast?, hlast]
          rfl
        simp only [hd]
        rw [List.getLastD_concat]
  · intro v2 m2 t ht
    unfold stallStep
    rw [if_neg]
    intro hgt
    have : t > now + 1000000 + secs_max := by linarith
    linarith

/-- C7 (witness): with a 30s threshold, last output at t=10 and the clock
at t=100, the stall branch trips: marker appended, monitor stopped with
254 and its registered temp file's removal attempted, 254 returned, and
the last-output clock moved to t=1000100. -/
theorem C7_stall_circuit_breaker_witness :
    stallStep ⟨[Run.fresh], none⟩
      { MonState.init with processAlive := true, tempFile := some "TEMP.x.mkv" }
      10 100 30 =
      (⟨[{ Run.fresh with texts := ["PROGRESS TIMEOUT"] }], none⟩,
       { MonState.init with returnCode := some 254 },
       1000100, some 254, some "TEMP.x.mkv") := by
  have h := (C7_stall_circuit_breaker ⟨[Run.fresh], none⟩
    { MonState.init with processAlive := true, tempFile := some "TEMP.x.mkv" }
    10 100 30 (by simp) (by norm_num)).1
  rw [h]
  simp only [Prod.mk.injEq]
  exact ⟨by decide, by decide, by norm_num, trivial⟩

end Rmbloat
